import Mathlib

/-!
# Verification of the `python-cli` template's command-line contract

Shallow embedding of `src/home/Templates/python-cli/src/.../cli.py`:
a click group `main` with three subcommands (`hello`, `info`, `list-items`)
and the click parsing/dispatch semantics those decorators induce.

Modelling conventions:
* Output is modelled as lists of plain-text lines (`out` for stdout, `err`
  for stderr).  `console.print` is modelled as rich renders it to a
  non-terminal stream: the argument is parsed as rich markup (tags open and
  close styles on a stack; an unmatched closing tag raises `MarkupError`,
  which click does not catch, ending the process with a traceback and exit
  code 1), styles are discarded, and the plain text is word-wrapped at the
  80-column default console width.  Cell widths are one column (ASCII
  domain); backslash tag escapes, emoji short-codes and style-name
  validation are outside the modelled domain and the theorems restrict
  user-supplied strings accordingly.
* Table box-drawing internals are abstracted: a table renders as its title
  line, a column-header line, and one line per row holding both cells.
* Python's `int()` (used by click's `INT` param type) is modelled over
  ASCII input: optional surrounding whitespace, an optional sign, and a
  nonempty digit sequence with single underscores allowed between digits.
* Click behaviour embedded: option tokens are parsed before any eager
  callback (`--version`, `--help`) fires; eager callbacks fire before
  type conversion and before the command body; group-level option parsing
  stops at the first positional token (the subcommand name); a bare group
  invocation prints help and exits 2; an unknown subcommand is a usage
  error with exit code 2.
-/

namespace Cli

/-- Result of one process invocation: stdout lines, stderr lines, exit code. -/
structure RunResult where
  out : List String
  err : List String
  exitCode : Nat
  deriving DecidableEq, Repr

/-- ASCII decimal digit test (`str.isdigit` restricted to ASCII, as used by `int()`). -/
def isPyDigit (c : Char) : Bool := '0' ≤ c && c ≤ '9'

/-- ASCII whitespace stripped by Python's `int()` before parsing. -/
def isPySpace (c : Char) : Bool :=
  c = ' ' || c = '\t' || c = '\n' || c = '\r' || c = '\x0b' || c = '\x0c'

/-- Numeric value of a digit character. -/
def digitVal (c : Char) : Nat := c.toNat - '0'.toNat

/-- Continuation of a Python integer literal after its first digit:
zero or more digits, with a single `_` allowed between two digits. -/
def parseDigitTail : List Char → Nat → Option Nat
  | [], acc => some acc
  | '_' :: c :: rest, acc =>
      if isPyDigit c then parseDigitTail rest (acc * 10 + digitVal c) else none
  | ['_'], _ => none
  | c :: rest, acc =>
      if isPyDigit c then parseDigitTail rest (acc * 10 + digitVal c) else none

/-- A nonempty digit part of a Python integer literal. -/
def parseDigitPart : List Char → Option Nat
  | [] => none
  | c :: rest => if isPyDigit c then parseDigitTail rest (digitVal c) else none

/-- Python's `int(s)` on a string, as invoked by click's `INT` parameter type:
strip whitespace, optional `+`/`-` sign, nonempty digits with optional
underscores between digits.  `none` models `ValueError`. -/
def parsePyInt (s : String) : Option Int :=
  let cs := s.data.dropWhile isPySpace
  let cs := (cs.reverse.dropWhile isPySpace).reverse
  match cs with
  | '-' :: rest => (parseDigitPart rest).map (fun n => -(n : Int))
  | '+' :: rest => (parseDigitPart rest).map (fun n => (n : Int))
  | _ => (parseDigitPart cs).map (fun n => (n : Int))

/-- Structural prefix test on character lists (kernel-reducible stand-in for
`str.startswith`). -/
def charsPrefix : List Char → List Char → Bool
  | [], _ => true
  | _ :: _, [] => false
  | c :: cs, d :: ds => c = d && charsPrefix cs ds

/-- `s.startswith(pre)` on strings, via their character lists. -/
def strStartsWith (s pre : String) : Bool := charsPrefix pre.data s.data

/-- A token the click parser treats as an option (starts with `-`, is not the
bare `-` positional, and is not the `--` option terminator). -/
def isOptionToken (s : String) : Bool :=
  strStartsWith s "-" && s ≠ "-" && s ≠ "--"

/-- The fixed version string printed by `click.version_option(version="0.1.0")`. -/
def versionLine : String := "main, version 0.1.0"

/-- Group help text (non-normative content; the contract is only that help
text is printed). -/
def groupHelpLines : List String :=
  ["Usage: main [OPTIONS] COMMAND [ARGS]...", "", "  A powerful CLI tool."]

/-- Stderr lines of a click `UsageError` raised at group level. -/
def groupUsageErrLines (msg : String) : List String :=
  ["Usage: main [OPTIONS] COMMAND [ARGS]...",
   "Try 'main --help' for help.", "", "Error: " ++ msg]

/-- Stderr lines of a click `UsageError` raised while parsing a subcommand. -/
def cmdUsageErrLines (cmd msg : String) : List String :=
  ["Usage: main " ++ cmd ++ " [OPTIONS]",
   "Try 'main " ++ cmd ++ " --help' for help.", "", "Error: " ++ msg]

/-- ASCII whitespace for rich's word-splitting regex and tag-name trimming. -/
def isSpaceChar (c : Char) : Bool :=
  c = ' ' || c = '\t' || c = '\n' || c = '\r' || c = '\x0b' || c = '\x0c'

/-- First character of a rich markup tag body (the regex class `[a-z#/@]`). -/
def isTagStart (c : Char) : Bool :=
  ('a' ≤ c && c ≤ 'z') || c = '#' || c = '/' || c = '@'

/-- Strip surrounding whitespace from a tag name (`str.strip()`). -/
def trimSpaces (cs : List Char) : List Char :=
  ((cs.dropWhile isSpaceChar).reverse.dropWhile isSpaceChar).reverse

/-- Remove the topmost open tag with the given name from the style stack
(rich's `pop_style`); `none` models its `KeyError`. -/
def popStyle (name : List Char) : List (List Char) → Option (List (List Char))
  | [] => none
  | t :: ts => if t = name then some ts else (popStyle name ts).map (fun r => t :: r)

/-- Apply one parsed tag to the style stack (rich's `markup.render` loop):
an opening tag pushes its name (the part before `=`); `[/]` pops the last
open tag; `[/name]` removes the matching open tag or raises `MarkupError`. -/
def applyTag (content : List Char) (stack : List (List Char)) :
    Except String (List (List Char)) :=
  let name := content.takeWhile (fun c => c != '=')
  match name with
  | '/' :: styleRaw =>
    let style := trimSpaces styleRaw
    if style.isEmpty then
      match stack with
      | [] => .error "closing tag [/] has nothing to close"
      | _ :: ts => .ok ts
    else
      match popStyle style stack with
      | some ts => .ok ts
      | none => .error ("closing tag [/" ++ String.mk style ++ "] does not match any open tag")
  | _ => .ok (name :: stack)

/-- Scanner for rich's markup grammar (`\[([a-z#/@][^[]*?)]` with leftmost
matching): outside a candidate tag, characters accumulate as plain text
(reversed in `acc`); after a `[`, characters accumulate in `buf` until the
first `]` closes a tag (applied to the stack, possibly a `MarkupError`) or
a `[`/end-of-input makes the scanned segment literal text.  Backslash tag
escapes, emoji short-codes and style-name validation are outside the
modelled domain (the theorems below restrict user input accordingly). -/
def markupGo : List Char → List (List Char) → List Char → Option (List Char) →
    Except String (List Char)
  | [], _, acc, none => .ok acc.reverse
  | [], _, acc, some buf => .ok ((buf ++ '[' :: acc).reverse)
  | c :: rest, stack, acc, none =>
    if c = '[' then markupGo rest stack acc (some [])
    else markupGo rest stack (c :: acc) none
  | c :: rest, stack, acc, some buf =>
    if c = ']' then
      match buf.reverse with
      | [] => markupGo rest stack (']' :: '[' :: acc) none
      | d :: ds =>
        if isTagStart d then
          match applyTag (d :: ds) stack with
          | .ok stack2 => markupGo rest stack2 acc none
          | .error e => .error e
        else markupGo rest stack (']' :: buf ++ '[' :: acc) none
    else if c = '[' then markupGo rest stack (buf ++ '[' :: acc) (some [])
    else markupGo rest stack acc (some (c :: buf))

/-- Render a markup string to its plain text (rich's `markup.render`
followed by discarding styles); `.error` models an uncaught `MarkupError`. -/
def markupStrip (s : String) : Except String String :=
  (markupGo s.data [] [] none).map (fun cs => (⟨cs⟩ : String))

/-- Split text into rich's wrap words (the regex `\s*\S+\s*`): maximal
non-space runs with trailing spaces attached, leading spaces attached to
the first word; text without a non-space character yields no words. -/
def splitWordsGo : List Char → List Char → Bool → Bool → List (List Char)
  | [], buf, seenNS, _ => if seenNS then [buf.reverse] else []
  | c :: rest, buf, seenNS, trail =>
    if isSpaceChar c then splitWordsGo rest (c :: buf) seenNS (trail || seenNS)
    else if trail then buf.reverse :: splitWordsGo rest [c] true false
    else splitWordsGo rest (c :: buf) true false

/-- Entry point of the word splitter. -/
def splitWords (cs : List Char) : List (List Char) := splitWordsGo cs [] false false

/-- Cell length of a word without its trailing whitespace (rich measures
`cell_len(word.rstrip())`; cells are one column wide in the ASCII domain
modelled here). -/
def rstripLen (w : List Char) : Nat := (w.reverse.dropWhile isSpaceChar).length

/-- Chop a word into `width`-sized chunks (rich's `chop_cells`), counting a
budget of remaining cells in the current chunk. -/
def chopGo (width : Nat) : Nat → List Char → List Char → List (List Char)
  | _, acc, [] => [acc.reverse]
  | 0, acc, c :: rest => acc.reverse :: chopGo width (width - 1) [c] rest
  | k + 1, acc, c :: rest => chopGo width k (c :: acc) rest

/-- Chop a non-empty word at the width boundary. -/
def chopChars (width : Nat) : List Char → List (List Char)
  | [] => [[]]
  | c :: rest => chopGo width (width - 1) [c] rest

/-- Greedy line assembly over the word list (rich's `divide_line`): a word
whose stripped length fits joins the current line; one that fits a fresh
line starts one; an over-width word closes the current line (if any), its
chopped chunks each start a line, and its last chunk stays current. -/
def wrapWordsGo (width : Nat) : List (List Char) → List Char → Nat → List (List Char)
  | [], line, _ => [line]
  | w :: ws, line, pos =>
    if pos + rstripLen w ≤ width then wrapWordsGo width ws (line ++ w) (pos + w.length)
    else if rstripLen w ≤ width then line :: wrapWordsGo width ws w w.length
    else
      let chunks := chopChars width w
      let body := chunks.dropLast
      let lastC := (chunks.getLast?).getD []
      (if line.isEmpty then body else line :: body) ++
        wrapWordsGo width ws lastC lastC.length

/-- Word-wrap plain text at the console width (80 columns when stdout is
not a terminal).  Text of at most `width` cells is a single line, exactly
as in rich's `divide_line` (no divide can occur); cell widths are one
column in the modelled ASCII domain. -/
def wrapPlain (width : Nat) (s : String) : List String :=
  if s.data.length ≤ width then [s]
  else (wrapWordsGo width (splitWords s.data) [] 0).map (fun cs => (⟨cs⟩ : String))

/-- One `console.print(m)` call: parse the markup, then wrap the plain text
at the 80-column console width.  `.error` models an uncaught `MarkupError`. -/
def consoleWrite (m : String) : Except String (List String) :=
  (markupStrip m).map (wrapPlain 80)

/-- Abbreviated stderr of the uncaught `MarkupError` traceback. -/
def tracebackLines (msg : String) : List String :=
  ["Traceback (most recent call last):", "rich.errors.MarkupError: " ++ msg]

/-- Sequentially `console.print` each message, keeping the stdout lines
emitted before a `MarkupError` aborts the body. -/
def printSeq : List String → List String → List String × Option String
  | [], acc => (acc, none)
  | m :: rest, acc =>
    match consoleWrite m with
    | .ok lines => printSeq rest (acc ++ lines)
    | .error e => (acc, some e)

/-- Outcome of a command body: exit 0 on success; an uncaught `MarkupError`
ends the process with a traceback on stderr and exit code 1. -/
def finishBody : List String × Option String → RunResult
  | (out, none) => ⟨out, [], 0⟩
  | (out, some e) => ⟨out, tracebackLines e, 1⟩

/-- The markup string the `hello` body prints each iteration:
`f"[bold green]Hello, {name}![/bold green]"`. -/
def helloMarkup (name : String) : String :=
  "[bold green]Hello, " ++ name ++ "![/bold green]"

/-- `hello` body: `for _ in range(count): console.print(...)`; `range` of a
negative count is empty, matching `Int.toNat`. -/
def hello (name : String) (count : Int) : RunResult :=
  finishBody (printSeq (List.replicate count.toNat (helloMarkup name)) [])

/-- Options the click parser collects for `hello` before processing:
raw string values (last occurrence wins) and the eager `--help` flag. -/
structure HelloRaw where
  name : Option String := none
  count : Option String := none
  help : Bool := false
  deriving DecidableEq, Repr

/-- Syntactic option-parsing pass for `hello` (click's `OptionParser`):
consumes `--name`/`--count` with their value tokens (`--opt value` or
`--opt=value`; the value token is consumed even if it begins with `-`),
records `--help`, rejects unknown options, and collects positional tokens. -/
def parseHelloTokens : List String → HelloRaw → List String →
    Except String (HelloRaw × List String)
  | [], acc, extras => .ok (acc, extras.reverse)
  | tok :: rest, acc, extras =>
    if tok = "--help" then parseHelloTokens rest { acc with help := true } extras
    else if tok = "--name" then
      match rest with
      | v :: rest2 => parseHelloTokens rest2 { acc with name := some v } extras
      | [] => .error "Option '--name' requires an argument."
    else if tok = "--count" then
      match rest with
      | v :: rest2 => parseHelloTokens rest2 { acc with count := some v } extras
      | [] => .error "Option '--count' requires an argument."
    else if strStartsWith tok "--name=" then
      parseHelloTokens rest { acc with name := some (tok.drop 7) } extras
    else if strStartsWith tok "--count=" then
      parseHelloTokens rest { acc with count := some (tok.drop 8) } extras
    else if tok = "--" then .ok (acc, extras.reverse ++ rest)
    else if isOptionToken tok then .error ("No such option: " ++ tok)
    else parseHelloTokens rest acc (tok :: extras)

/-- Help output for a subcommand (non-normative content). -/
def cmdHelpLines (cmd : String) : List String :=
  ["Usage: main " ++ cmd ++ " [OPTIONS]"]

/-- Processing pass for `hello` after token parsing, in click's order:
the eager `--help` callback first, then `INT` conversion of `--count`
(default `1`, default `--name` is `"World"`), then the extra-positional
check, then the command body.  A failed conversion is a usage error:
the body never runs and no greeting line is emitted. -/
def runHello (args : List String) : RunResult :=
  match parseHelloTokens args {} [] with
  | .error msg => ⟨[], cmdUsageErrLines "hello" msg, 2⟩
  | .ok (raw, extras) =>
    if raw.help then ⟨cmdHelpLines "hello", [], 0⟩
    else
      match raw.count with
      | none =>
        if extras.isEmpty then hello (raw.name.getD "World") 1
        else ⟨[], cmdUsageErrLines "hello" "Got unexpected extra arguments", 2⟩
      | some cs =>
        match parsePyInt cs with
        | none =>
          ⟨[], cmdUsageErrLines "hello"
              ("Invalid value for '--count': '" ++ cs ++ "' is not a valid integer."), 2⟩
        | some n =>
          if extras.isEmpty then hello (raw.name.getD "World") n
          else ⟨[], cmdUsageErrLines "hello" "Got unexpected extra arguments", 2⟩

/-- A two-column table as built by the `info` body via `rich.table.Table`. -/
structure InfoTable where
  title : String
  columns : List String
  rows : List (String × String)
  deriving DecidableEq, Repr

/-- The fixed table the `info` body constructs. -/
def infoTable : InfoTable :=
  { title := "\x7b\x7bPROJECT_NAME\x7d\x7d Info"
  , columns := ["Property", "Value"]
  , rows := [("Name", "\x7b\x7bPROJECT_NAME\x7d\x7d"),
             ("Version", "0.1.0"),
             ("Description", "A CLI tool built with Python")] }

/-- Abstract rendering of a table: its title, a column-header line, and one
line per row carrying both cells (box drawing abstracted away). -/
def renderTable (t : InfoTable) : List String :=
  t.title :: String.intercalate " | " t.columns ::
    t.rows.map (fun r => r.1 ++ " | " ++ r.2)

/-- `info` body: builds `infoTable` and prints it. -/
def infoOut : List String := renderTable infoTable

/-- Token parsing for a command declaring no options of its own (`info`,
`list-items`): records the eager `--help` flag, collects positional tokens
(everything after `--` is positional), rejects unknown options. -/
def parseBareTokens : List String → Bool → List String →
    Except String (Bool × List String)
  | [], help, extras => .ok (help, extras.reverse)
  | tok :: rest, help, extras =>
    if tok = "--help" then parseBareTokens rest true extras
    else if tok = "--" then .ok (help, extras.reverse ++ rest)
    else if isOptionToken tok then .error ("No such option: " ++ tok)
    else parseBareTokens rest help (tok :: extras)

/-- The `info` command: accepts no arguments; `--help` is eager; unknown
options and extra positionals are usage errors. -/
def runInfo (args : List String) : RunResult :=
  match parseBareTokens args false [] with
  | .error msg => ⟨[], cmdUsageErrLines "info" msg, 2⟩
  | .ok (help, extras) =>
    if help then ⟨cmdHelpLines "info", [], 0⟩
    else if extras.isEmpty then ⟨infoOut, [], 0⟩
    else ⟨[], cmdUsageErrLines "info" "Got unexpected extra arguments", 2⟩

/-- Lines produced by `for i, item in enumerate(items, start): print(f"  {i}. {item}")`. -/
def itemLines : Nat → List String → List String
  | _, [] => []
  | i, item :: rest => ("  " ++ toString i ++ ". " ++ item) :: itemLines (i + 1) rest

/-- `list_items` body: `console.print` of the `No items provided!` message
on an empty tuple, otherwise of the `Items:` header markup followed by each
1-indexed item line; a `MarkupError` in an item aborts mid-body. -/
def list_items (items : List String) : RunResult :=
  if items.isEmpty then finishBody (printSeq ["[yellow]No items provided![/yellow]"] [])
  else finishBody (printSeq ("[bold]Items:[/bold]" :: itemLines 1 items) [])

/-- The `list-items` command: `--help` is eager; a variadic `ITEMS` argument
(`nargs=-1`) collects every positional token. -/
def runListItems (args : List String) : RunResult :=
  match parseBareTokens args false [] with
  | .error msg => ⟨[], cmdUsageErrLines "list-items" msg, 2⟩
  | .ok (help, items) =>
    if help then ⟨cmdHelpLines "list-items", [], 0⟩
    else list_items items

/-- Group-level option parsing (`allow_interspersed_args = False`): scans
tokens up to the first positional, collecting the recognized eager flags
`--version`/`--help` in encounter order; an unrecognized option token is a
usage error; `--` terminates option parsing.  Returns the collected flags
and the remaining tokens (subcommand name plus its arguments). -/
def groupParse : List String → Except String (List String × List String)
  | [] => .ok ([], [])
  | tok :: rest =>
    if tok = "--version" || tok = "--help" then
      match groupParse rest with
      | .ok (flags, r) => .ok (tok :: flags, r)
      | .error m => .error m
    else if tok = "--" then .ok ([], rest)
    else if isOptionToken tok then .error ("No such option: " ++ tok)
    else .ok ([], tok :: rest)

/-- Subcommand dispatch: exact name match against the registered commands
(click derives `hello`, `info`, `list-items` from the function names);
a bare invocation prints the group help and exits 2 (`no_args_is_help`);
an unknown name is a usage error with exit code 2. -/
def dispatch : List String → RunResult
  | [] => ⟨[], groupHelpLines, 2⟩
  | cmd :: args =>
    if cmd = "hello" then runHello args
    else if cmd = "info" then runInfo args
    else if cmd = "list-items" then runListItems args
    else ⟨[], groupUsageErrLines ("No such command '" ++ cmd ++ "'."), 2⟩

/-- The `main` click group applied to a process argument vector: parse the
group-level tokens, fire the first eager flag (`--version` prints the fixed
version string and exits 0; `--help` prints help and exits 0), otherwise
dispatch on the subcommand. -/
def main (argv : List String) : RunResult :=
  match groupParse argv with
  | .error msg => ⟨[], groupUsageErrLines msg, 2⟩
  | .ok (flags, rest) =>
    match flags with
    | f :: _ => if f = "--version" then ⟨[versionLine], [], 0⟩ else ⟨groupHelpLines, [], 0⟩
    | [] => dispatch rest

/-! ## Helper lemmas -/

/-- Reducing `runHello` once `--count` carries the raw string `s`. -/
theorem runHello_count (s : String) :
    runHello ["--count", s] =
      match parsePyInt s with
      | none =>
        ⟨[], cmdUsageErrLines "hello"
            ("Invalid value for '--count': '" ++ s ++ "' is not a valid integer."), 2⟩
      | some n => hello "World" n := by
  have e : parseHelloTokens ["--count", s] {} [] =
      .ok ({ count := some s }, []) := rfl
  rw [runHello, e]
  rcases hp : parsePyInt s with _ | n <;> simp [hp]

/-- A list of tokens none of which begins with `-` is parsed by
`parseBareTokens` entirely as positional arguments. -/
theorem parseBareTokens_all_positional (items : List String) :
    ∀ (help : Bool) (extras : List String),
    (∀ t ∈ items, strStartsWith t "-" = false) →
    parseBareTokens items help extras = .ok (help, extras.reverse ++ items) := by
  induction items with
  | nil => intro help extras _; simp [parseBareTokens]
  | cons tok rest ih =>
    intro help extras h
    have htok : strStartsWith tok "-" = false := h tok (List.mem_cons_self tok rest)
    have h1 : tok ≠ "--help" := by
      intro e; subst e; exact absurd htok (by decide)
    have h2 : tok ≠ "--" := by
      intro e; subst e; exact absurd htok (by decide)
    have h3 : isOptionToken tok = false := by
      simp [isOptionToken, htok]
    rw [parseBareTokens]
    simp only [h1, h2, h3, if_false, if_neg, Bool.false_eq_true]
    rw [ih help (tok :: extras) (fun t ht => h t (List.mem_cons_of_mem tok ht))]
    simp

/-- `itemLines` produces one line per item. -/
theorem itemLines_length (items : List String) :
    ∀ k, (itemLines k items).length = items.length := by
  induction items with
  | nil => intro k; rfl
  | cons item rest ih => intro k; simp [itemLines, ih]

/-- The `i`-th line of `itemLines k items` is the `i`-th item prefixed with
its 1-indexed (from `k`) number. -/
theorem itemLines_get (items : List String) :
    ∀ k i item, items[i]? = some item →
      (itemLines k items)[i]? = some ("  " ++ toString (k + i) ++ ". " ++ item) := by
  induction items with
  | nil => intro k i item h; simp at h
  | cons x rest ih =>
    intro k i item h
    cases i with
    | zero => simp at h; subst h; simp [itemLines]
    | succ j =>
      simp only [List.getElem?_cons_succ] at h
      have := ih (k + 1) j item h
      simpa [itemLines, Nat.add_comm, Nat.add_assoc, Nat.add_left_comm] using this

/-- If every group-level option token (the `takeWhile isOptionToken` prefix)
is a recognized eager flag, group parsing succeeds. -/
theorem groupParse_ok_of_flags (rest : List String)
    (h : ∀ t ∈ rest.takeWhile isOptionToken, t = "--version" ∨ t = "--help") :
    ∃ flags r, groupParse rest = .ok (flags, r) := by
  induction rest with
  | nil => exact ⟨[], [], rfl⟩
  | cons tok rest ih =>
    by_cases hv : tok = "--version" ∨ tok = "--help"
    · have hopt : isOptionToken tok = true := by
        rcases hv with e | e <;> subst e <;> decide
      have htw : List.takeWhile isOptionToken (tok :: rest) =
          tok :: List.takeWhile isOptionToken rest := by
        simp [List.takeWhile_cons, hopt]
      have hrest : ∀ t ∈ rest.takeWhile isOptionToken, t = "--version" ∨ t = "--help" := by
        intro t ht
        exact h t (by rw [htw]; exact List.mem_cons_of_mem tok ht)
      obtain ⟨flags, r, hg⟩ := ih hrest
      rcases hv with e | e <;> subst e
      · exact ⟨"--version" :: flags, r, by rw [groupParse]; simp [hg]⟩
      · exact ⟨"--help" :: flags, r, by rw [groupParse]; simp [hg]⟩
    · push_neg at hv
      obtain ⟨h1, h2⟩ := hv
      by_cases hopt : isOptionToken tok = true
      · exfalso
        have htw : List.takeWhile isOptionToken (tok :: rest) =
            tok :: List.takeWhile isOptionToken rest := by
          simp [List.takeWhile_cons, hopt]
        have := h tok (by rw [htw]; exact List.mem_cons_self _ _)
        simp [h1, h2] at this
      · simp only [Bool.not_eq_true] at hopt
        by_cases hdd : tok = "--"
        · subst hdd
          refine ⟨[], rest, ?_⟩
          rw [groupParse]
          rw [if_neg (by decide), if_pos rfl]
        · refine ⟨[], tok :: rest, ?_⟩
          rw [groupParse]
          simp [h1, h2, hdd, hopt]

/-- An unregistered, non-option first token is an unknown subcommand:
`main` reports a usage error with exit code 2 and runs no handler. -/
theorem main_unknown_cmd (cmd : String) (rest : List String)
    (hopt : isOptionToken cmd = false) (hdd : cmd ≠ "--")
    (hnot : cmd ∉ ["hello", "info", "list-items"]) :
    Cli.main (cmd :: rest) =
      ⟨[], groupUsageErrLines ("No such command '" ++ cmd ++ "'."), 2⟩ := by
  have h1 : cmd ≠ "--version" := by
    intro e; subst e; exact absurd hopt (by decide)
  have h2 : cmd ≠ "--help" := by
    intro e; subst e; exact absurd hopt (by decide)
  simp only [List.mem_cons, List.mem_singleton, not_or] at hnot
  obtain ⟨hh, hi, hl⟩ := hnot
  have e : groupParse (cmd :: rest) = .ok ([], cmd :: rest) := by
    rw [groupParse]
    simp [h1, h2, hdd, hopt]
  rw [Cli.main, e]
  show dispatch (cmd :: rest) = _
  rw [dispatch]
  simp [hh, hi, hl]

/-- Plain characters (no `[`) pass through the markup scanner untouched. -/
theorem markupGo_plain (cs : List Char) (h : ∀ c ∈ cs, c ≠ '[') :
    ∀ rest stack acc, markupGo (cs ++ rest) stack acc none =
      markupGo rest stack (cs.reverse ++ acc) none := by
  induction cs with
  | nil => intro rest stack acc; simp
  | cons c cs ih =>
    intro rest stack acc
    have hc : c ≠ '[' := h c (List.mem_cons_self _ _)
    have hrest : ∀ x ∈ cs, x ≠ '[' := fun x hx => h x (List.mem_cons_of_mem _ hx)
    rw [List.cons_append]
    show (if c = '[' then markupGo (cs ++ rest) stack acc (some [])
          else markupGo (cs ++ rest) stack (c :: acc) none) = _
    rw [if_neg hc, ih hrest rest stack (c :: acc)]
    simp

/-- A markup-free string renders to itself. -/
theorem markupStrip_plain (s : String) (h : ∀ c ∈ s.data, c ≠ '[') :
    markupStrip s = .ok s := by
  have e1 : markupGo (s.data ++ []) [] [] none = markupGo [] [] (s.data.reverse ++ []) none :=
    markupGo_plain s.data h [] [] []
  rw [List.append_nil] at e1
  have e2 : markupGo [] [] (s.data.reverse ++ []) none =
      Except.ok ((s.data.reverse ++ []).reverse) := rfl
  have e3 : (s.data.reverse ++ []).reverse = s.data := by simp
  rw [markupStrip, e1, e2, e3]
  rfl

/-- A markup-free string of at most 80 cells prints as exactly itself. -/
theorem consoleWrite_plain (s : String) (h1 : ∀ c ∈ s.data, c ≠ '[')
    (h2 : s.data.length ≤ 80) :
    consoleWrite s = .ok [s] := by
  rw [consoleWrite, markupStrip_plain s h1]
  show Except.ok (wrapPlain 80 s) = _
  rw [wrapPlain, if_pos h2]

/-- The hello markup renders to `Hello, name!` when the name has no `[`. -/
theorem markupStrip_hello (s : String) (h1 : ∀ c ∈ s.data, c ≠ '[') :
    markupStrip (helloMarkup s) = .ok ("Hello, " ++ s ++ "!") := by
  have e1 : markupStrip (helloMarkup s) =
      (markupGo (s.data ++ "![/bold green]".data) ["bold green".data] " ,olleH".data none).map
        (fun cs => (⟨cs⟩ : String)) := rfl
  rw [e1, markupGo_plain s.data h1]
  have e2 : markupGo ("![/bold green]".data) ["bold green".data]
      (s.data.reverse ++ " ,olleH".data) none =
      .ok (('!' :: (s.data.reverse ++ " ,olleH".data)).reverse) := rfl
  rw [e2]
  show Except.ok (String.mk (('!' :: (s.data.reverse ++ " ,olleH".data)).reverse)) =
    Except.ok ("Hello, " ++ s ++ "!")
  have e3 : ('!' :: (s.data.reverse ++ " ,olleH".data)).reverse =
      ("Hello, " ++ s ++ "!").data := by
    have e4 : ("Hello, " ++ s ++ "!").data = "Hello, ".data ++ s.data ++ "!".data := rfl
    have e5 : (" ,olleH".data).reverse = "Hello, ".data := rfl
    have e6 : "!".data = ['!'] := rfl
    rw [e4, e6]
    simp [List.reverse_cons, List.reverse_append, e5]
  rw [e3]

/-- Printing a list of messages that each render to one line. -/
theorem printSeq_ok (msgs : List String) (h : ∀ m ∈ msgs, consoleWrite m = .ok [m]) :
    ∀ acc, printSeq msgs acc = (acc ++ msgs, none) := by
  induction msgs with
  | nil => intro acc; simp [printSeq]
  | cons m rest ih =>
    intro acc
    have hm := h m (List.mem_cons_self _ _)
    have hrest : ∀ x ∈ rest, consoleWrite x = .ok [x] :=
      fun x hx => h x (List.mem_cons_of_mem _ hx)
    show (match consoleWrite m with
      | .ok lines => printSeq rest (acc ++ lines)
      | .error e => (acc, some e)) = _
    rw [hm]
    show printSeq rest (acc ++ [m]) = _
    rw [ih hrest (acc ++ [m])]
    simp

/-- Repeatedly printing one message that renders to one line. -/
theorem printSeq_replicate (m l : String) (h : consoleWrite m = .ok [l]) :
    ∀ k acc, printSeq (List.replicate k m) acc = (acc ++ List.replicate k l, none) := by
  intro k
  induction k with
  | zero => intro acc; simp [printSeq]
  | succ k ih =>
    intro acc
    rw [List.replicate_succ]
    show (match consoleWrite m with
      | .ok lines => printSeq (List.replicate k m) (acc ++ lines)
      | .error e => (acc, some e)) = _
    rw [h]
    show printSeq (List.replicate k m) (acc ++ [l]) = _
    rw [ih (acc ++ [l])]
    simp [List.replicate_succ]

/-! ## Claims -/

/-- C1 (counterexample): `greet` is not a registered subcommand name: the
invocation `greet` selects no handler (empty stdout, exit code 2), while
`hello` — a name outside the claimed set — selects the greeting handler. -/
theorem greet_not_registered :
    (Cli.main ["greet"]).out = [] ∧ (Cli.main ["greet"]).exitCode = 2 ∧
    Cli.main ["hello"] = ⟨["Hello, World!"], [], 0⟩ :=
  ⟨rfl, rfl, rfl⟩

/-- C1 (amended): the dispatcher identifies the subcommand by exact name
match against the registered names `hello`, `info` and `list-items`: each
of these three first positional tokens selects its handler, and any other
non-option first token selects none and fails with exit code 2. -/
theorem dispatch_by_name :
    (∀ args, Cli.main ("hello" :: args) = runHello args) ∧
    (∀ args, Cli.main ("info" :: args) = runInfo args) ∧
    (∀ args, Cli.main ("list-items" :: args) = runListItems args) ∧
    (∀ cmd rest, isOptionToken cmd = false → cmd ≠ "--" →
      cmd ∉ ["hello", "info", "list-items"] →
      (Cli.main (cmd :: rest)).out = [] ∧ (Cli.main (cmd :: rest)).exitCode = 2) := by
  refine ⟨fun args => rfl, fun args => rfl, fun args => rfl,
    fun cmd rest hopt hdd hnot => ?_⟩
  rw [main_unknown_cmd cmd rest hopt hdd hnot]
  exact ⟨rfl, rfl⟩

/-- Witness for the amended C1 at concrete inputs. -/
theorem dispatch_by_name_witness :
    Cli.main ["hello"] = runHello [] ∧ Cli.main ["info"] = runInfo [] ∧
    Cli.main ["list-items"] = runListItems [] ∧
    (Cli.main ["greet"]).out = [] ∧ (Cli.main ["greet"]).exitCode = 2 :=
  ⟨dispatch_by_name.1 [], dispatch_by_name.2.1 [], dispatch_by_name.2.2.1 [],
   (dispatch_by_name.2.2.2 "greet" [] (by decide) (by decide) (by decide)).1,
   (dispatch_by_name.2.2.2 "greet" [] (by decide) (by decide) (by decide)).2⟩

/-- C2: for every non-negative integer `n`, `hello --count n` (the `--count`
value token denoting `n`) prints exactly `n` lines `Hello, World!` and
exits 0; in particular zero lines for `n = 0`. -/
theorem hello_count_nonneg (n : Nat) (s : String)
    (h : parsePyInt s = some (n : Int)) :
    Cli.main ["hello", "--count", s] =
      ⟨List.replicate n "Hello, World!", [], 0⟩ := by
  have e : Cli.main ["hello", "--count", s] = runHello ["--count", s] := rfl
  rw [e, runHello_count, h]
  show hello "World" (n : Int) = _
  have e2 : hello "World" (n : Int) =
      finishBody (printSeq (List.replicate n (helloMarkup "World")) []) := by
    rw [hello, Int.toNat_ofNat]
  rw [e2, printSeq_replicate (helloMarkup "World") "Hello, World!" rfl n []]
  rfl

/-- Witness for C2 at `n = 0` and `n = 3`. -/
theorem hello_count_nonneg_witness :
    Cli.main ["hello", "--count", "0"] = ⟨List.replicate 0 "Hello, World!", [], 0⟩ ∧
    Cli.main ["hello", "--count", "3"] = ⟨List.replicate 3 "Hello, World!", [], 0⟩ :=
  ⟨hello_count_nonneg 0 "0" (by decide), hello_count_nonneg 3 "3" (by decide)⟩

/-- C3: a `--count` value that does not parse as an integer is rejected
before the command body runs: a usage error on stderr, a nonzero exit code,
and zero greeting lines on stdout. -/
theorem hello_count_parse_error (s : String) (h : parsePyInt s = none) :
    Cli.main ["hello", "--count", s] =
      ⟨[], cmdUsageErrLines "hello"
          ("Invalid value for '--count': '" ++ s ++ "' is not a valid integer."), 2⟩ ∧
    (Cli.main ["hello", "--count", s]).out = [] ∧
    (Cli.main ["hello", "--count", s]).err ≠ [] ∧
    (Cli.main ["hello", "--count", s]).exitCode ≠ 0 := by
  have e : Cli.main ["hello", "--count", s] = runHello ["--count", s] := rfl
  refine ⟨?_, ?_, ?_, ?_⟩ <;> rw [e, runHello_count, h] <;> simp [cmdUsageErrLines]

/-- Witness for C3 at the spec's example `--count abc`. -/
theorem hello_count_parse_error_witness :
    (Cli.main ["hello", "--count", "abc"]).out = [] ∧
    (Cli.main ["hello", "--count", "abc"]).err ≠ [] ∧
    (Cli.main ["hello", "--count", "abc"]).exitCode ≠ 0 :=
  ⟨(hello_count_parse_error "abc" (by decide)).2.1,
   (hello_count_parse_error "abc" (by decide)).2.2.1,
   (hello_count_parse_error "abc" (by decide)).2.2.2⟩

/-- Printable ASCII characters that trigger none of rich's inline
processing: no markup (`[`), no backslash tag escape, no emoji short-code
delimiter (`:`). -/
def plainAsciiSafe (c : Char) : Bool :=
  32 ≤ c.toNat && c.toNat ≤ 126 && c ≠ '[' && c ≠ '\\' && c ≠ ':'

/-- C4 (counterexample): the name is not inert text: `console.print` parses
rich markup inside it.  An unmatched closing tag as the name raises
`MarkupError` — exit code 1, a traceback on stderr, no greeting line — and
a matched tag pair is stripped rather than printed verbatim; a 100-character
name wraps the greeting over the 80-column console width into three lines.
All three invocations use non-empty printable names, so the claim's
verbatim/exit-0 promise fails. -/
theorem hello_name_not_verbatim :
    (Cli.main ["hello", "--name", "[/red]"]).exitCode = 1 ∧
    (Cli.main ["hello", "--name", "[/red]"]).out = [] ∧
    (Cli.main ["hello", "--name", "[/red]"]).err ≠ [] ∧
    Cli.main ["hello", "--name", "[red]x[/red]"] = ⟨["Hello, x!"], [], 0⟩ ∧
    (Cli.main ["hello", "--name", String.mk (List.replicate 100 'a')]).out.length = 3 :=
  ⟨rfl, rfl, by decide, rfl, rfl⟩

/-- C4 (amended): for every non-empty printable name `s` free of rich's
inline-processing characters (`[`, `\`, `:`) whose greeting line fits the
80-column console width, `hello --name s` with the default count prints
exactly one line `Hello, s!` (with `s` verbatim) and exits 0 — proved for
every such string, empty or not. -/
theorem hello_name_line (s : String)
    (hsafe : ∀ c ∈ s.data, plainAsciiSafe c = true)
    (hlen : s.data.length ≤ 72) :
    Cli.main ["hello", "--name", s] = ⟨["Hello, " ++ s ++ "!"], [], 0⟩ := by
  have h1 : ∀ c ∈ s.data, c ≠ '[' := by
    intro c hc he
    subst he
    exact absurd (hsafe _ hc) (by decide)
  have hw : ("Hello, " ++ s ++ "!").data.length ≤ 80 := by
    have e4 : ("Hello, " ++ s ++ "!").data = "Hello, ".data ++ s.data ++ "!".data := rfl
    have l7 : "Hello, ".data.length = 7 := rfl
    have l1 : "!".data.length = 1 := rfl
    rw [e4]
    simp only [List.length_append, l7, l1]
    omega
  have hcw : consoleWrite (helloMarkup s) = .ok ["Hello, " ++ s ++ "!"] := by
    rw [consoleWrite, markupStrip_hello s h1]
    show Except.ok (wrapPlain 80 ("Hello, " ++ s ++ "!")) = _
    rw [wrapPlain, if_pos hw]
  have hps : printSeq [helloMarkup s] [] = (["Hello, " ++ s ++ "!"], none) := by
    show (match consoleWrite (helloMarkup s) with
      | .ok lines => printSeq [] ([] ++ lines)
      | .error e => ([], some e)) = _
    rw [hcw]
    simp [printSeq]
  calc Cli.main ["hello", "--name", s]
      = finishBody (printSeq [helloMarkup s] []) := rfl
    _ = finishBody (["Hello, " ++ s ++ "!"], none) := by rw [hps]
    _ = ⟨["Hello, " ++ s ++ "!"], [], 0⟩ := rfl

/-- Witness for the amended C4 at the test suite's name `Python`. -/
theorem hello_name_line_witness :
    Cli.main ["hello", "--name", "Python"] = ⟨["Hello, Python!"], [], 0⟩ :=
  hello_name_line "Python" (by decide) (by decide)

/-- C5 (counterexample): items are not inert text: `console.print` parses
rich markup inside each item line.  An unmatched closing tag as the sole
item raises `MarkupError` after the header printed — stdout holds only
`Items:`, exit code 1, a traceback on stderr — and a 100-character item
wraps its line over the 80-column width, so stdout has four lines instead
of the claimed header plus one line per item. -/
theorem list_items_not_verbatim :
    (Cli.main ["list-items", "[/red]"]).out = ["Items:"] ∧
    (Cli.main ["list-items", "[/red]"]).exitCode = 1 ∧
    (Cli.main ["list-items", "[/red]"]).err ≠ [] ∧
    (Cli.main ["list-items", String.mk (List.replicate 100 'a')]).out.length = 4 :=
  ⟨rfl, rfl, by decide, rfl⟩

/-- C5 (amended): `list-items` on a non-empty item sequence whose formatted
item lines are free of rich's inline-processing characters and fit the
80-column console width prints the `Items:` header followed by exactly one
line per item, 1-indexed in the given order, each formatted as two spaces,
the index, a period, a space, then the item; exit code 0.  When no item
token begins with `-` the full dispatcher invocation produces exactly that
output. -/
theorem list_items_nonempty (items : List String) (hne : items ≠ [])
    (hsafe : ∀ m ∈ itemLines 1 items, ∀ c ∈ m.data, plainAsciiSafe c = true)
    (hwid : ∀ m ∈ itemLines 1 items, m.data.length ≤ 80) :
    list_items items = ⟨"Items:" :: itemLines 1 items, [], 0⟩ ∧
    (itemLines 1 items).length = items.length ∧
    (∀ i item, items[i]? = some item →
      (itemLines 1 items)[i]? = some ("  " ++ toString (i + 1) ++ ". " ++ item)) ∧
    ((∀ t ∈ items, strStartsWith t "-" = false) →
      Cli.main ("list-items" :: items) = ⟨"Items:" :: itemLines 1 items, [], 0⟩) := by
  have hmsgs : ∀ m ∈ itemLines 1 items, consoleWrite m = .ok [m] := by
    intro m hm
    refine consoleWrite_plain m ?_ (hwid m hm)
    intro c hc he
    subst he
    exact absurd (hsafe m hm _ hc) (by decide)
  have hie : items.isEmpty = false := by
    cases items with
    | nil => exact absurd rfl hne
    | cons _ _ => rfl
  have hb : list_items items = ⟨"Items:" :: itemLines 1 items, [], 0⟩ := by
    rw [list_items, hie]
    show finishBody (printSeq ("[bold]Items:[/bold]" :: itemLines 1 items) []) = _
    have hstep : printSeq ("[bold]Items:[/bold]" :: itemLines 1 items) [] =
        (["Items:"] ++ itemLines 1 items, none) := by
      show (match consoleWrite "[bold]Items:[/bold]" with
        | .ok lines => printSeq (itemLines 1 items) ([] ++ lines)
        | .error e => ([], some e)) = _
      rw [show consoleWrite "[bold]Items:[/bold]" = .ok ["Items:"] from rfl]
      show printSeq (itemLines 1 items) ["Items:"] = _
      rw [printSeq_ok (itemLines 1 items) hmsgs ["Items:"]]
    rw [hstep]
    rfl
  refine ⟨hb, itemLines_length items 1, ?_, ?_⟩
  · intro i item h
    have := itemLines_get items 1 i item h
    simpa [Nat.add_comm] using this
  · intro hdash
    have e : Cli.main ("list-items" :: items) = runListItems items := rfl
    rw [e, runListItems, parseBareTokens_all_positional items false [] hdash]
    simpa using hb

/-- Witness for the amended C5 at the spec's example `list-items apple banana cherry`. -/
theorem list_items_nonempty_witness :
    Cli.main ["list-items", "apple", "banana", "cherry"] =
      ⟨["Items:", "  1. apple", "  2. banana", "  3. cherry"], [], 0⟩ ∧
    (itemLines 1 ["apple", "banana", "cherry"]).length = 3 := by
  have h := list_items_nonempty ["apple", "banana", "cherry"] (by decide)
    (by decide) (by decide)
  refine ⟨?_, h.2.1⟩
  rw [h.2.2.2 (by decide)]
  rfl

/-- C6: `list-items` with zero arguments prints exactly one line,
`No items provided!` — no header line and no item lines — and exits 0. -/
theorem list_items_empty_message :
    Cli.main ["list-items"] = ⟨["No items provided!"], [], 0⟩ := rfl

/-- C7 (counterexample): an argument vector carrying the top-level
`--version` flag does not always print the version and exit 0: alongside an
unrecognized top-level option token, parsing fails first — exit code 2 and
no version line — and with the eager `--help` flag ahead of it, `--help`
fires first and the group help is printed instead of the version string. -/
theorem version_blocked_by_bad_option :
    (Cli.main ["--version", "--bogus"]).exitCode = 2 ∧
    (Cli.main ["--version", "--bogus"]).out = [] ∧
    Cli.main ["--help", "--version"] = ⟨groupHelpLines, [], 0⟩ :=
  ⟨rfl, rfl, rfl⟩

/-- C7 (amended): when `--version` leads the invocation and every top-level
option token (those before the first positional) is a recognized eager flag,
the fixed version string is printed and the process exits 0 without running
any subcommand body — regardless of the subcommand token and everything
after it. -/
theorem version_eager (rest : List String)
    (h : ∀ t ∈ rest.takeWhile isOptionToken, t = "--version" ∨ t = "--help") :
    Cli.main ("--version" :: rest) = ⟨[versionLine], [], 0⟩ := by
  obtain ⟨flags, r, hg⟩ := groupParse_ok_of_flags rest h
  have e : groupParse ("--version" :: rest) = .ok ("--version" :: flags, r) := by
    rw [groupParse]; simp [hg]
  rw [Cli.main, e]
  rfl

/-- Witness for the amended C7: `--version` wins over a subcommand carrying
an invalid option value. -/
theorem version_eager_witness :
    Cli.main ["--version", "hello", "--count", "abc"] = ⟨[versionLine], [], 0⟩ :=
  version_eager ["hello", "--count", "abc"] (by decide)

/-- C8: a bare invocation, and every invocation naming an unknown
subcommand, prints usage/help text on stderr and exits nonzero, with no
subcommand body run (stdout empty). -/
theorem unknown_or_missing_subcommand :
    ((Cli.main []).exitCode ≠ 0 ∧ (Cli.main []).out = [] ∧ (Cli.main []).err ≠ []) ∧
    (∀ cmd rest, isOptionToken cmd = false → cmd ≠ "--" →
      cmd ∉ ["hello", "info", "list-items"] →
      (Cli.main (cmd :: rest)).exitCode ≠ 0 ∧ (Cli.main (cmd :: rest)).out = [] ∧
      (Cli.main (cmd :: rest)).err ≠ []) := by
  constructor
  · exact ⟨by decide, rfl, by decide⟩
  · intro cmd rest hopt hdd hnot
    rw [main_unknown_cmd cmd rest hopt hdd hnot]
    refine ⟨by simp, rfl, ?_⟩
    simp [groupUsageErrLines]

/-- Witness for C8 at the unknown subcommand `greet`. -/
theorem unknown_or_missing_subcommand_witness :
    (Cli.main ["greet"]).exitCode ≠ 0 ∧ (Cli.main ["greet"]).out = [] ∧
    (Cli.main ["greet"]).err ≠ [] :=
  unknown_or_missing_subcommand.2 "greet" [] (by decide) (by decide) (by decide)

/-- C9: `info` with no arguments exits 0 and renders the fixed record as a
two-column (`Property`, `Value`) table with exactly the three rows Name,
Version, Description, and the output contains the literal project-name
token. -/
theorem info_renders_table :
    Cli.main ["info"] = ⟨renderTable infoTable, [], 0⟩ ∧
    infoTable.columns = ["Property", "Value"] ∧
    infoTable.rows.map Prod.fst = ["Name", "Version", "Description"] ∧
    infoTable.rows.length = 3 ∧
    (∃ l ∈ (Cli.main ["info"]).out, ∃ pre post,
      l = pre ++ "\x7b\x7bPROJECT_NAME\x7d\x7d" ++ post) := by
  refine ⟨rfl, rfl, rfl, rfl,
    ⟨"\x7b\x7bPROJECT_NAME\x7d\x7d Info", by decide, "", " Info", by decide⟩⟩

/-- C10: a negative `--count` value is accepted rather than rejected: the
invocation parses, prints zero greeting lines, and exits 0. -/
theorem hello_count_negative (n : Int) (hn : n < 0) (s : String)
    (h : parsePyInt s = some n) :
    Cli.main ["hello", "--count", s] = ⟨[], [], 0⟩ := by
  have e : Cli.main ["hello", "--count", s] = runHello ["--count", s] := rfl
  rw [e, runHello_count, h]
  show hello "World" n = _
  rw [hello, Int.toNat_of_nonpos hn.le]
  rfl

/-- Witness for C10 at `--count -3`. -/
theorem hello_count_negative_witness :
    Cli.main ["hello", "--count", "-3"] = ⟨[], [], 0⟩ :=
  hello_count_negative (-3) (by decide) "-3" (by decide)

end Cli
